import Mathlib

/-!
Verification development for the chan_logic pattern-detection engine
(consolidation-range detection, breakout-pullback validation, bottom-divergence
detection, divergence strength scoring and the buy-point aggregators).

The engine operates on pandas DataFrames of OHLCV bars carrying precomputed
oscillator columns (dif, dea, macd).  The embedding models a bar series as a
list of records of exact rationals; frame-level presence of the oscillator
columns is modelled by boolean flags, and reading an absent column is modelled
as a KeyError in the fault-tracking (Except) variants of the detectors.
Length-guarded positional indexing (iloc on paths protected by explicit length
checks in the source) is embedded with defaulted list indexing.

Structure field names transliterate the source's Chinese dict keys; each
record documents the mapping.  Reason strings reproduce the source's message
strings (including their Chinese text and fixed-point formatting).

The core rational operations are restored to semireducible transparency so
that concrete runs of the detectors evaluate inside decide; this changes
elaboration only, not the kernel's checking.
-/

set_option allowUnsafeReducibility true

attribute [local semireducible] Rat.add Rat.mul Rat.sub Rat.div Rat.inv Rat.neg

/-- One OHLCV bar with precomputed oscillator values: the columns open, high,
low, close, volume, dif, dea, macd of the source's DataFrames.  Prices and
oscillator values are modelled as exact rationals. -/
structure Bar where
  openPrice : ℚ
  high : ℚ
  low : ℚ
  close : ℚ
  volume : ℚ
  dif : ℚ
  dea : ℚ
  macd : ℚ
  deriving DecidableEq

/-- A DataFrame of bars.  The flags record which oscillator columns the frame
carries (the source tests membership with expressions like
"dif" not in df.columns; reading an absent column raises KeyError). -/
structure DF where
  bars : List Bar
  hasDif : Bool
  hasDea : Bool
  hasMacd : Bool
  deriving DecidableEq

/-- df.tail(k): the most recent k rows (the whole frame when k exceeds its
length). -/
def tailList (k : ℕ) (l : List α) : List α := l.drop (l.length - k)

/-- numpy min over an array, with 0 as the default for the empty array (all
uses in the embedding sit behind the source's nonemptiness guards). -/
def minD (l : List ℚ) : ℚ :=
  match l with
  | [] => 0
  | x :: xs => xs.foldl min x

/-- numpy max over an array, with 0 as the default for the empty array. -/
def maxD (l : List ℚ) : ℚ :=
  match l with
  | [] => 0
  | x :: xs => xs.foldl max x

/-- series.iloc[-1], with 0 as the default for an empty series (all uses sit
behind the source's length guards). -/
def lastD (l : List ℚ) : ℚ := l.getLastD 0

/-- Index of the last element satisfying p: the source scans
range(n-1, -1, -1) and stops at the first hit. -/
def lastIdxWhere (p : α → Bool) : List α → Option ℕ
  | [] => none
  | a :: as =>
    match lastIdxWhere p as with
    | some i => some (i + 1)
    | none => if p a then some 0 else none

/-- Index of the first element satisfying p (Python enumerate-and-break). -/
def firstIdxWhere (p : α → Bool) : List α → Option ℕ
  | [] => none
  | a :: as => if p a then some 0 else (firstIdxWhere p as).map (· + 1)

/-- Python int(): truncation toward zero. -/
def pyInt (q : ℚ) : ℤ := if 0 ≤ q then ⌊q⌋ else -⌊-q⌋

/-- Python round(x, d): round half to even at d decimal places, on the exact
rational idealization of the source's floats. -/
def pyRound (q : ℚ) (d : ℕ) : ℚ :=
  let s := q * (10 : ℚ) ^ d
  let f : ℤ := ⌊s⌋
  let frac := s - (f : ℚ)
  let r : ℤ :=
    if frac < 1/2 then f
    else if 1/2 < frac then f + 1
    else if f % 2 = 0 then f else f + 1
  (r : ℚ) / (10 : ℚ) ^ d

/-- Left-pad a digit string with zeros to width d. -/
def padZeros (s : String) (d : ℕ) : String :=
  if s.length < d then String.mk (List.replicate (d - s.length) '0') ++ s else s

/-- Python fixed-point formatting (the f-string directive .Nf) of an exact
rational: round half to even at d places, then print. -/
def pyFixed (q : ℚ) (d : ℕ) : String :=
  let r := pyRound q d
  let scaled : ℤ := ⌊r * (10 : ℚ) ^ d⌋
  let a := scaled.natAbs
  let ip := a / 10 ^ d
  let fp := a % 10 ^ d
  (if scaled < 0 then "-" else "") ++ toString ip ++
    (if d = 0 then "" else "." ++ padZeros (toString fp) d)

/-- find_zhongshu_simple (chan_logic.py lines 11-38): simplified pivot-range
identification.  Truncate to the most recent lookback bars, split the last
3 * segment_bars bars into three abutting segments, and return the overlap
(ZD, ZG) of the three segment ranges, or none when the segments do not
overlap or too few bars remain. -/
def find_zhongshu_simple (df : DF) (segment_bars : ℕ := 8) (lookback : ℕ := 50) :
    Option (ℚ × ℚ) :=
  if df.bars.length < segment_bars * 3 then none
  else
    let w := tailList lookback df.bars
    let n := w.length
    if n < segment_bars * 3 then none
    else
      let s1 := (w.drop (n - segment_bars * 3)).take segment_bars
      let s2 := (w.drop (n - segment_bars * 2)).take segment_bars
      let s3 := w.drop (n - segment_bars)
      let h1 := maxD (s1.map Bar.high)
      let l1 := minD (s1.map Bar.low)
      let h2 := maxD (s2.map Bar.high)
      let l2 := minD (s2.map Bar.low)
      let h3 := maxD (s3.map Bar.high)
      let l3 := minD (s3.map Bar.low)
      let zg := min h1 (min h2 h3)
      let zd := max l1 (max l2 l3)
      if zg ≤ zd then none else some (zd, zg)

/-- is_third_buy_simple (chan_logic.py lines 41-82): breakout-pullback
validation against a known range (zd, zg).  Scanning the trailing window most
recent first: find the most recent close above ZG, require the lows strictly
after it to stay above ZG, and require the final close to reach
ZG + min_close_above_zg.  The zd parameter is accepted and unused, as in the
source. -/
def is_third_buy_simple (df : DF) (zd zg : ℚ) (break_bars : ℕ := 3)
    (pullback_bars : ℕ := 10) (min_close_above_zg : ℚ := 0) : Bool :=
  if df.bars.length < break_bars + pullback_bars then false
  else
    let w := tailList (break_bars + pullback_bars + 5) df.bars
    let close := w.map Bar.close
    let low := w.map Bar.low
    match lastIdxWhere (fun c => decide (zg < c)) close with
    | none => false
    | some break_idx =>
      let after_lows := low.drop (break_idx + 1)
      if after_lows.isEmpty then false
      else if minD after_lows ≤ zg then false
      else if lastD close < zg + min_close_above_zg then false
      else true

/-- Result record of _is_third_buy_with_reasons.  Field mapping:
brokeZG = 曾突破ZG, pullbackHeld = 回抽不破ZG, closeAboveZG = 当前收盘在ZG上,
reasons = 原因. -/
structure ThirdBuyReasons where
  brokeZG : Bool
  pullbackHeld : Bool
  closeAboveZG : Bool
  reasons : List String
  deriving DecidableEq

/-- _is_third_buy_with_reasons (chan_logic.py lines 110-145): the
detail-producing variant of breakout-pullback validation, reporting which
individual condition failed.  When no bar follows the breakout bar the
pullback minimum defaults to zg itself, so pullbackHeld is false. -/
def is_third_buy_with_reasons (df : DF) (zd zg : ℚ) (break_bars : ℕ := 5)
    (pullback_bars : ℕ := 10) : ThirdBuyReasons :=
  if df.bars.length < break_bars + pullback_bars + 2 then
    ⟨false, false, false, ["K线数量不足"]⟩
  else
    let w := tailList (break_bars + pullback_bars + 5) df.bars
    let close := w.map Bar.close
    let low := w.map Bar.low
    match lastIdxWhere (fun c => decide (zg < c)) close with
    | none => ⟨false, false, false, ["近期无收盘价突破中枢上沿ZG"]⟩
    | some break_idx =>
      let after_lows := low.drop (break_idx + 1)
      let min_after := if after_lows.isEmpty then zg else minD after_lows
      let held := decide (zg < min_after)
      let aboveNow := decide (zg ≤ lastD close)
      ⟨true, held, aboveNow,
        (if held then [] else
          ["突破后回抽最低价" ++ pyFixed min_after 4 ++ "<=ZG" ++ pyFixed zg 4]) ++
        (if aboveNow then [] else
          ["当前收盘" ++ pyFixed (lastD close) 4 ++ "<ZG" ++ pyFixed zg 4])⟩

/-- Default bar for length-guarded positional access. -/
def defBar : Bar := ⟨0, 0, 0, 0, 0, 0, 0, 0⟩

/-- A local-low record: the (index, low price, dif value) tuples produced by
find_recent_lows. -/
structure LowPoint where
  idx : ℕ
  price : ℚ
  dif : ℚ
  deriving DecidableEq

/-- Default low point for length-guarded positional access. -/
def defLP : LowPoint := ⟨0, 0, 0⟩

/-- Stable ascending insertion for a boolean comparator: the new element
lands after every existing element that compares at or below it, so
elements with equal keys keep their original relative order. -/
def stableInsert (le : α → α → Bool) (a : α) : List α → List α
  | [] => [a]
  | b :: bs => if le b a then b :: stableInsert le a bs else a :: b :: bs

/-- Stable insertion sort: the behaviour of Python's stable list.sort for a
total comparator, in a structurally recursive form the kernel can evaluate. -/
def stableSort (le : α → α → Bool) (l : List α) : List α :=
  l.foldl (fun acc a => stableInsert le a acc) []

/-- The ascending-by-price comparison of the source's
lows.sort(key=lambda x: x[1]). -/
def lowLe (a b : LowPoint) : Bool := decide (a.price ≤ b.price)

/-- find_recent_lows (chan_logic.py lines 245-260): the local lows (strictly
lower than both neighbors) of the trailing lookback window, as
(index, low, dif) records, sorted ascending by price with Python's stable
sort. -/
def find_recent_lows (df : DF) (lookback : ℕ := 20) : List LowPoint :=
  let w := tailList lookback df.bars
  let lows := (List.range w.length).filterMap (fun i =>
    if 1 ≤ i ∧ i + 1 < w.length then
      let p := w.getD (i-1) defBar
      let c := w.getD i defBar
      let nx := w.getD (i+1) defBar
      if c.low < p.low ∧ c.low < nx.low then some (⟨i, c.low, c.dif⟩ : LowPoint)
      else none
    else none)
  stableSort lowLe lows

/-- Result record of check_bottom_divergence.  Field mapping:
hasDivergence = 存在底背驰, priceNewLow = 价格新低, difNewLow = DIF新低,
macdNewLow = MACD新低, prevLowDif = 前低位置DIF, reasons = 原因. -/
structure BottomDivResult where
  hasDivergence : Bool
  priceNewLow : Option ℚ
  difNewLow : Option ℚ
  macdNewLow : Option ℚ
  prevLowDif : Option ℚ
  reasons : List String
  deriving DecidableEq

/-- check_bottom_divergence (chan_logic.py lines 263-322): MACD bottom
divergence.  After sorting the window's local lows ascending by price, the
source takes lows[-1] as "current" and lows[-2] as "previous" and reports
divergence iff current.price < previous.price and current.dif > previous.dif. -/
def check_bottom_divergence (df : DF) (lookback : ℕ := 20) : BottomDivResult :=
  if df.bars.length < 30 then ⟨false, none, none, none, none, ["K线不足"]⟩
  else if ¬(df.hasDif ∧ df.hasDea) then ⟨false, none, none, none, none, ["无MACD数据"]⟩
  else
    let lows := find_recent_lows df lookback
    if lows.length < 2 then ⟨false, none, none, none, none, ["找不到足够的低点"]⟩
    else
      let current := lows.getD (lows.length - 1) defLP
      let prev := lows.getD (lows.length - 2) defLP
      if current.price < prev.price then
        if prev.dif < current.dif then
          ⟨true, some (pyRound current.price 2), some (pyRound current.dif 4), none,
            some (pyRound prev.dif 4), []⟩
        else ⟨false, none, none, none, none, ["DIF也创新低，无背驰"]⟩
      else ⟨false, none, none, none, none, ["价格未创新低"]⟩

/-- The claim's selection rule for bottom divergence, stated from the spec's
words: take the two lowest-priced local lows of the window (list sorted
ascending by price), call the lower-priced one current and the higher-priced
one previous, and report divergence iff current.price < previous.price and
current.dif > previous.dif.  Declared for comparison with the source's
check_bottom_divergence. -/
def spec_bottom_divergence (df : DF) (lookback : ℕ := 20) : Bool :=
  let lows := find_recent_lows df lookback
  if lows.length < 2 then false
  else
    let current := lows.getD 0 defLP
    let prev := lows.getD 1 defLP
    decide (current.price < prev.price) && decide (prev.dif < current.dif)

/-- The divergence-magnitude sub-score of calculate_divergence_strength
(chan_logic.py lines 393-408): compare the dif values at the two lows, fall
back to the histogram values, floor score 5 when neither confirms; each
percentage is guarded by an explicit zero check on its baseline. -/
def divergence_magnitude_score (current_dif prev_dif current_macd prev_macd : ℚ) : ℤ :=
  if prev_dif ≤ current_dif then
    let div_pct := if prev_dif ≠ 0 then (current_dif - prev_dif) / |prev_dif| * 100 else 0
    min 40 (pyInt (div_pct * 2))
  else if prev_macd ≤ current_macd then
    let div_pct := if prev_macd ≠ 0 then (current_macd - prev_macd) / |prev_macd| * 100 else 0
    min 40 (pyInt (div_pct * 2))
  else 5

/-- Rational division with an explicit division fault, for the fault-tracking
variant of the magnitude sub-score. -/
def qdiv (a b : ℚ) : Except String ℚ :=
  if b = 0 then Except.error "ZeroDivisionError" else Except.ok (a / b)

/-- Fault-tracking variant of divergence_magnitude_score: each division of
the source is routed through qdiv, so that a zero divisor would surface as a
ZeroDivisionError instead of being absorbed by total rational division. -/
def divergence_magnitude_scoreE (current_dif prev_dif current_macd prev_macd : ℚ) :
    Except String ℤ :=
  if prev_dif ≤ current_dif then do
    let div_pct ← if prev_dif ≠ 0 then do
        let q ← qdiv (current_dif - prev_dif) |prev_dif|
        pure (q * 100)
      else pure (0 : ℚ)
    pure (min 40 (pyInt (div_pct * 2)))
  else if prev_macd ≤ current_macd then do
    let div_pct ← if prev_macd ≠ 0 then do
        let q ← qdiv (current_macd - prev_macd) |prev_macd|
        pure (q * 100)
      else pure (0 : ℚ)
    pure (min 40 (pyInt (div_pct * 2)))
  else pure 5

/-- Result record of calculate_divergence_strength.  Field mapping:
hasDiv = 有底背驰, score = 力度评分, priceDropScore = 价格跌幅得分,
magnitudeScore = 背离得分, macdStateScore = MACD状态得分,
probBand = 预估上涨概率, strengthBand = 预估上涨力度, reasons = 原因. -/
structure DivStrengthResult where
  hasDiv : Bool
  score : ℤ
  priceDropScore : ℤ
  magnitudeScore : ℤ
  macdStateScore : ℤ
  probBand : String
  strengthBand : String
  reasons : List String
  deriving DecidableEq

/-- calculate_divergence_strength (chan_logic.py lines 330-454): re-derive the
bottom divergence from the two ends of the ascending-by-price local-low list
of a 20-bar lookback inside the most recent 30 bars, then combine the
price-drop sub-score (cap 30), the divergence-magnitude sub-score (cap 40,
floor 5) and the oscillator-state sub-score (30/20/15/5) into a total score
with fixed probability and strength bands. -/
def calculate_divergence_strength (df : DF) : DivStrengthResult :=
  if df.bars.length < 30 then ⟨false, 0, 0, 0, 0, "", "", ["数据不足"]⟩
  else if ¬(df.hasDif ∧ df.hasDea) then ⟨false, 0, 0, 0, 0, "", "", ["无MACD数据"]⟩
  else
    let w := tailList 30 df.bars
    let dfw : DF := ⟨w, df.hasDif, df.hasDea, df.hasMacd⟩
    let lows := find_recent_lows dfw 20
    if lows.length < 2 then ⟨false, 0, 0, 0, 0, "", "", ["找不到足够的局部低点"]⟩
    else
      let current := lows.getD (lows.length - 1) defLP
      let prev := lows.getD (lows.length - 2) defLP
      if current.price < prev.price ∧ prev.dif < current.dif then
        let price_drop_pct := (prev.price - current.price) / prev.price * 100
        let price_score := min 30 (pyInt (price_drop_pct * 3))
        let macd_vals := if df.hasMacd then w.map Bar.macd
          else List.zipWith (fun a b => a - b) (w.map Bar.dif) (w.map Bar.dea)
        let div_score := divergence_magnitude_score current.dif prev.dif
          (macd_vals.getD current.idx 0) (macd_vals.getD prev.idx 0)
        let current_dea := lastD (w.map Bar.dea)
        let current_dif := lastD (w.map Bar.dif)
        let current_macd := lastD macd_vals
        let macd_score : ℤ :=
          if current_dea < 0 ∧ current_dea < current_dif then 30
          else if current_dea < current_dif ∧ 0 < current_macd then 20
          else if 0 < current_macd then 15
          else 5
        let total := price_score + div_score + macd_score
        let prob := if 80 ≤ total then "极高 (>90%)"
          else if 60 ≤ total then "高 (70-90%)"
          else if 40 ≤ total then "中 (50-70%)"
          else "低 (<50%)"
        let strength := if 70 ≤ total then "强劲"
          else if 50 ≤ total then "中等"
          else "较弱"
        ⟨true, total, price_score, div_score, macd_score, prob, strength, []⟩
      else ⟨false, 0, 0, 0, 0, "", "", ["无底背驰"]⟩

/-- An extremum record of find_all_local_extrema: window position, price and
oscillator values, plus the date string (our bar model carries no date
column, so the source's row.get with default str(i) yields the index
rendering). -/
structure Extremum where
  idx : ℕ
  price : ℚ
  dif : ℚ
  dea : ℚ
  macd : ℚ
  date : String
  deriving DecidableEq

/-- Reading the dif column of a row; KeyError when the frame lacks it. -/
def colDif (df : DF) (b : Bar) : Except String ℚ :=
  if df.hasDif then Except.ok b.dif else Except.error "KeyError: dif"

/-- Reading the dea column of a row; KeyError when the frame lacks it. -/
def colDea (df : DF) (b : Bar) : Except String ℚ :=
  if df.hasDea then Except.ok b.dea else Except.error "KeyError: dea"

/-- Reading the macd column of a row; KeyError when the frame lacks it. -/
def colMacd (df : DF) (b : Bar) : Except String ℚ :=
  if df.hasMacd then Except.ok b.macd else Except.error "KeyError: macd"

/-- One iteration of the find_all_local_extrema scan, fault-tracking: test
window position i as a local high and as a local low, reading the oscillator
columns (possibly faulting on an absent one) exactly where the source builds
its record literals (chan_logic.py lines 470-488). -/
def extremaStepE (df : DF) (w : List Bar) (acc : List Extremum × List Extremum)
    (i : ℕ) : Except String (List Extremum × List Extremum) :=
  if 1 ≤ i ∧ i + 1 < w.length then
    let p := w.getD (i-1) defBar
    let c := w.getD i defBar
    let nx := w.getD (i+1) defBar
    do
      let hs ← if p.high < c.high ∧ nx.high < c.high then do
          let d ← colDif df c
          let e ← colDea df c
          let m ← colMacd df c
          pure (acc.1 ++ [(⟨i, c.high, d, e, m, toString i⟩ : Extremum)])
        else pure acc.1
      let ls ← if c.low < p.low ∧ c.low < nx.low then do
          let d ← colDif df c
          let e ← colDea df c
          let m ← colMacd df c
          pure (acc.2 ++ [(⟨i, c.low, d, e, m, toString i⟩ : Extremum)])
        else pure acc.2
      pure (hs, ls)
  else pure acc

/-- One iteration of the find_all_local_extrema scan, pure form (the value
the fault-tracking step produces when all oscillator columns are present). -/
def extremaStep (w : List Bar) (acc : List Extremum × List Extremum) (i : ℕ) :
    List Extremum × List Extremum :=
  if 1 ≤ i ∧ i + 1 < w.length then
    let p := w.getD (i-1) defBar
    let c := w.getD i defBar
    let nx := w.getD (i+1) defBar
    let hs := if p.high < c.high ∧ nx.high < c.high then
        acc.1 ++ [(⟨i, c.high, c.dif, c.dea, c.macd, toString i⟩ : Extremum)]
      else acc.1
    let ls := if c.low < p.low ∧ c.low < nx.low then
        acc.2 ++ [(⟨i, c.low, c.dif, c.dea, c.macd, toString i⟩ : Extremum)]
      else acc.2
    (hs, ls)
  else acc

/-- find_all_local_extrema (chan_logic.py lines 459-490), fault-tracking: all
local highs and lows of the trailing lookback window; the source reads the
dif, dea and macd columns without a presence guard, so an absent column
surfaces as a KeyError. -/
def find_all_local_extremaE (df : DF) (lookback : ℕ := 60) :
    Except String (List Extremum × List Extremum) :=
  let w := tailList lookback df.bars
  (List.range w.length).foldlM (extremaStepE df w) ([], [])

/-- find_all_local_extrema, pure form: the value of the fault-tracking
version on frames carrying all oscillator columns. -/
def find_all_local_extrema (df : DF) (lookback : ℕ := 60) :
    List Extremum × List Extremum :=
  let w := tailList lookback df.bars
  (List.range w.length).foldl (extremaStep w) ([], [])

/-- Result record of the first-buy detector.  Field mapping:
existsFirstBuy = 存在一买, firstBuyPos = 一买位置, reasons = 原因. -/
structure FirstBuyResult where
  existsFirstBuy : Bool
  firstBuyPos : Option ℚ
  reasons : List String
  deriving DecidableEq

/-- Modelled from the spec: check_first_buy_point is called by
check_second_buy_point, check_third_buy_from_first_buy and
analyze_all_buy_points (chan_logic.py lines 805, 872, 1074) but is defined
nowhere in the repository sources.  Following spec section 4.4 (the
first-buy / bottom-divergence detector): require the oscillator columns and
at least two local lows in the lookback window, take the two lowest-priced
local lows (list sorted ascending by price), call the lower-priced one
current and the higher-priced one previous, and signal a first buy at the
current low's price iff current.price < previous.price and
current.dif > previous.dif.  Missing columns and insufficient bars are
reported through the reasons list, never as exceptions (spec section 7). -/
def check_first_buy_point (df : DF) (lookback : ℕ := 80) : FirstBuyResult :=
  if df.bars.length < 30 then ⟨false, none, ["K线不足"]⟩
  else if ¬(df.hasDif ∧ df.hasDea) then ⟨false, none, ["无MACD数据"]⟩
  else
    let lows := find_recent_lows df lookback
    if lows.length < 2 then ⟨false, none, ["找不到足够的低点"]⟩
    else
      let current := lows.getD 0 defLP
      let prev := lows.getD 1 defLP
      if current.price < prev.price ∧ prev.dif < current.dif then
        ⟨true, some current.price, []⟩
      else ⟨false, none, ["无底背驰"]⟩

/-- The most recent value of a rolling(w).mean() over a series: the mean of
the trailing w entries.  Only read on paths where the source guarantees at
least w entries, so the NaN prefix of pandas rolling never reaches a
comparison through this definition. -/
def rollLast (w : ℕ) (l : List ℚ) : ℚ :=
  (tailList w l).foldl (fun a b => a + b) 0 / (w : ℚ)

/-- The same-day golden-cross condition of the first-buy and second-buy
composers (chan_logic.py lines 734 and 972): fast MA at or below slow MA on
the second-to-last bar and fast strictly above slow on the last bar. -/
def same_day_golden_cross (closes : List ℚ) : Bool :=
  decide (rollLast 5 closes.dropLast ≤ rollLast 10 closes.dropLast) &&
  decide (rollLast 10 closes < rollLast 5 closes)

/-- Result record of check_today_first_buy.  Field mapping:
todayFirstBuy = 今天一买, firstBuyPos = 一买位置, isBottomDiv = 是否底背驰,
maGoldenCross = 均线金叉, reasons = 原因. -/
structure TodayFirstResult where
  todayFirstBuy : Bool
  firstBuyPos : Option ℚ
  isBottomDiv : Bool
  maGoldenCross : Bool
  reasons : List String
  deriving DecidableEq

/-- check_today_first_buy (chan_logic.py lines 696-772): a freshly formed
first buy, via a same-day MA5/MA10 golden cross, or via a bottom divergence
whose qualifying low sits at position at most 2 of the 10-bar window (the
source's low_idx <= 2 test).  The lookback parameter is accepted and unused,
as in the source. -/
def check_today_first_buy (df : DF) (lookback : ℕ := 30) : TodayFirstResult :=
  if df.bars.length < 20 then ⟨false, none, false, false, ["K线不足"]⟩
  else
    let closes := df.bars.map Bar.close
    if 2 ≤ df.bars.length ∧ same_day_golden_cross closes = true then
      ⟨true, some (lastD closes), false, true,
        ["今天MA5金叉MA10，当前价" ++ pyFixed (lastD closes) 2]⟩
    else if 10 ≤ df.bars.length then
      let lows := find_recent_lows df 10
      if 2 ≤ lows.length then
        let recentLow := lows.getD 0 defLP
        let prevLow := lows.getD 1 defLP
        if recentLow.idx ≤ 2 then
          if recentLow.price < prevLow.price ∧ prevLow.dif < recentLow.dif then
            ⟨true, some recentLow.price, true, false,
              ["今天形成底背驰，价格新低" ++ pyFixed recentLow.price 2 ++ "，DIF背离"]⟩
          else ⟨false, none, false, false, ["今天未形成一买"]⟩
        else ⟨false, none, false, false, ["今天未形成一买"]⟩
      else ⟨false, none, false, false, ["今天未形成一买"]⟩
    else ⟨false, none, false, false, ["今天未形成一买"]⟩

/-- Result record of check_today_second_buy.  Field mapping:
todaySecondBuy = 今天二买, firstBuyPos = 一买位置, secondBuyPos = 二买位置,
reasons = 原因. -/
structure TodaySecondResult where
  todaySecondBuy : Bool
  firstBuyPos : Option ℚ
  secondBuyPos : Option ℚ
  reasons : List String
  deriving DecidableEq

/-- The whole-frame local-low scan of check_today_second_buy (chan_logic.py
lines 934-937): (index, low) pairs, before the ascending sort by price.  The
source's tuples also carry an unused date string. -/
def today_second_lows (bars : List Bar) : List (ℕ × ℚ) :=
  (List.range bars.length).filterMap (fun i =>
    if 1 ≤ i ∧ i + 1 < bars.length then
      let p := bars.getD (i-1) defBar
      let c := bars.getD i defBar
      let nx := bars.getD (i+1) defBar
      if c.low < p.low ∧ c.low < nx.low then some (i, c.low) else none
    else none)

/-- The proxy first-buy level of check_today_second_buy: the minimum
local-low price, read as the head of the ascending-by-price sort. -/
def today_one_buy_price (bars : List Bar) : ℚ :=
  ((stableSort (fun a b => decide (a.2 ≤ b.2)) (today_second_lows bars)).getD 0 (0, 0)).2

/-- The pullback trigger path of check_today_second_buy: enough bars, at
least two local lows, and the last close within 5 percent of the proxy
first-buy level while strictly above it. -/
def today_second_pullback (df : DF) : Bool :=
  decide (20 ≤ df.bars.length) &&
  decide (2 ≤ (today_second_lows df.bars).length) &&
  (let b := today_one_buy_price df.bars
   let c := lastD (df.bars.map Bar.close)
   decide (|c - b| ≤ b * (5/100)) && decide (b < c))

/-- check_today_second_buy (chan_logic.py lines 916-982): a same-day second
buy, either by the last close pulling back to within 5 percent above the
lowest local low (the proxy first-buy level), or by a same-day MA golden
cross with the last close above that level.  The lookback parameter is
accepted and unused, as in the source. -/
def check_today_second_buy (df : DF) (lookback : ℕ := 30) : TodaySecondResult :=
  if df.bars.length < 20 then ⟨false, none, none, ["K线不足"]⟩
  else
    let lows := today_second_lows df.bars
    if lows.length < 2 then ⟨false, none, none, ["找不到足够低点"]⟩
    else
      let one_buy := today_one_buy_price df.bars
      let closes := df.bars.map Bar.close
      let current := lastD closes
      if |current - one_buy| ≤ one_buy * (5/100) ∧ one_buy < current then
        ⟨true, some one_buy, some current,
          ["今天回抽到一买位置" ++ pyFixed one_buy 2 ++ "附近，当前价" ++ pyFixed current 2]⟩
      else if 2 ≤ df.bars.length ∧ same_day_golden_cross closes = true ∧ one_buy < current then
        ⟨true, some one_buy, some current,
          ["今天MA金叉且价格高于一买，一买" ++ pyFixed one_buy 2 ++ "，当前" ++ pyFixed current 2]⟩
      else ⟨false, none, none, ["今天未形成二买"]⟩

/-- Result record of check_today_third_buy.  Field mapping:
todayThirdBuy = 今天三买, zhongshuZG = 中枢ZG, zhongshuZD = 中枢ZD,
currentPrice = 当前价格, reasons = 原因. -/
structure TodayThirdResult where
  todayThirdBuy : Bool
  zhongshuZG : Option ℚ
  zhongshuZD : Option ℚ
  currentPrice : Option ℚ
  reasons : List String
  deriving DecidableEq

/-- check_today_third_buy (chan_logic.py lines 985-1036): a same-day third
buy: a valid pivot range exists, the last close and last low both exceed ZG,
and some close of the most recent 5 bars exceeds ZG. -/
def check_today_third_buy (df : DF) (lookback : ℕ := 30) : TodayThirdResult :=
  if df.bars.length < 30 then ⟨false, none, none, none, ["K线不足"]⟩
  else
    match find_zhongshu_simple df 6 (min lookback (df.bars.length - 10)) with
    | none => ⟨false, none, none, none, ["未找到有效中枢"]⟩
    | some (zd, zg) =>
      let closes := df.bars.map Bar.close
      let current := lastD closes
      let currentLow := lastD (df.bars.map Bar.low)
      if zg < current ∧ zg < currentLow then
        if (tailList 5 closes).any (fun c => decide (zg < c)) then
          ⟨true, some zg, some zd, some current,
            ["今天收盘价" ++ pyFixed current 2 ++ ">ZG" ++ pyFixed zg 2 ++ "，最低价"
              ++ pyFixed currentLow 2 ++ ">ZG，未跌破"]⟩
        else ⟨false, some zg, some zd, some current, ["最近5天无突破ZG"]⟩
      else
        ⟨false, some zg, some zd, some current,
          (if current ≤ zg then
            ["当前收盘" ++ pyFixed current 2 ++ "未突破ZG" ++ pyFixed zg 2] else []) ++
          (if currentLow ≤ zg then
            ["当前最低" ++ pyFixed currentLow 2 ++ "跌破了ZG" ++ pyFixed zg 2] else [])⟩

/-- Result record of analyze_today_buy_points.  Field mapping:
thirdBuy = 三买, secondBuy = 二买, firstBuy = 一买, todaySignal = 今天信号. -/
structure TodayAllResult where
  thirdBuy : TodayThirdResult
  secondBuy : TodaySecondResult
  firstBuy : TodayFirstResult
  todaySignal : String
  deriving DecidableEq

/-- analyze_today_buy_points (chan_logic.py lines 1039-1059): run the three
same-day checks and report one signal with the strict precedence
third > second > first. -/
def analyze_today_buy_points (df : DF) (lookback : ℕ := 30) : TodayAllResult :=
  let third := check_today_third_buy df lookback
  let second := check_today_second_buy df lookback
  let first := check_today_first_buy df lookback
  let signal := if third.todayThirdBuy then "三买"
    else if second.todaySecondBuy then "二买"
    else if first.todayFirstBuy then "一买"
    else "无"
  ⟨third, second, first, signal⟩

/-- Result record of check_second_buy_point.  Field mapping:
existsSecondBuy = 存在二买, firstBuyPos = 一买位置, secondBuyPos = 二买位置,
zhongshuZG = 中枢ZG, zhongshuZD = 中枢ZD, reasons = 原因. -/
structure SecondBuyResult where
  existsSecondBuy : Bool
  firstBuyPos : Option ℚ
  secondBuyPos : Option ℚ
  zhongshuZG : Option ℚ
  zhongshuZD : Option ℚ
  reasons : List String
  deriving DecidableEq

/-- check_second_buy_point (chan_logic.py lines 775-851), fault-tracking:
find the first buy, collect the local lows priced above it via
find_all_local_extrema (whose unguarded oscillator-column reads may raise
KeyError), and signal a second buy when the lowest such low and the current
close both sit above the first-buy level; a best-effort pivot-range lookup
fills the range fields on success. -/
def check_second_buy_pointE (df : DF) (lookback : ℕ := 80) :
    Except String SecondBuyResult :=
  if df.bars.length < 50 then Except.ok ⟨false, none, none, none, none, ["K线不足"]⟩
  else
    let fb := check_first_buy_point df lookback
    if fb.existsFirstBuy = false then
      Except.ok ⟨false, none, none, none, none, ["未找到一买"]⟩
    else
      match fb.firstBuyPos with
      | none => Except.error "TypeError: comparison with None"
      | some one_buy => do
        let ex ← find_all_local_extremaE df lookback
        let lows := ex.2
        let candidates := lows.filter (fun l => decide (one_buy < l.price))
        if candidates.length = 0 then
          pure ⟨false, some one_buy, none, none, none, ["一买之后无明显回调"]⟩
        else
          let recent_low := minD (candidates.map Extremum.price)
          if recent_low ≠ 0 ∧ one_buy < recent_low then
            let current_close := lastD (df.bars.map Bar.close)
            if one_buy < current_close then
              let zs :=
                match firstIdxWhere (fun l => decide (|l.price - one_buy| < 1/100)) lows with
                | some j =>
                  if j + 2 < lows.length then
                    let df_after := tailList lookback df.bars
                    if 30 < df_after.length then
                      find_zhongshu_simple ⟨df_after, df.hasDif, df.hasDea, df.hasMacd⟩ 6
                        (min 30 (df_after.length - 5))
                    else none
                  else none
                | none => none
              pure ⟨true, some one_buy, some recent_low, zs.map Prod.snd, zs.map Prod.fst,
                ["回抽低点" ++ pyFixed recent_low 2 ++ "高于一买" ++ pyFixed one_buy 2 ++
                  "，当前价" ++ pyFixed current_close 2 ++ "也在一买之上"]⟩
            else pure ⟨false, some one_buy, none, none, none, ["未形成有效的二买形态"]⟩
          else pure ⟨false, some one_buy, none, none, none, ["未形成有效的二买形态"]⟩

/-- Result record of check_third_buy_from_first_buy.  Field mapping:
existsThirdBuy = 存在三买, firstBuyPos = 一买位置, zhongshuZG = 中枢ZG,
zhongshuZD = 中枢ZD, reasons = 原因. -/
structure ThirdFromFirstResult where
  existsThirdBuy : Bool
  firstBuyPos : Option ℚ
  zhongshuZG : Option ℚ
  zhongshuZD : Option ℚ
  reasons : List String
  deriving DecidableEq

/-- check_third_buy_from_first_buy (chan_logic.py lines 854-913),
fault-tracking: find the first buy, locate its bar by scanning the lows from
the most recent backward for a price within 0.01 of the first-buy level,
then look for a pivot range and a breakout-pullback pattern in the bars from
that position on. -/
def check_third_buy_from_first_buyE (df : DF) (lookback : ℕ := 80) :
    Except String ThirdFromFirstResult :=
  if df.bars.length < 50 then Except.ok ⟨false, none, none, none, ["K线不足"]⟩
  else
    let fb := check_first_buy_point df lookback
    if fb.existsFirstBuy = false then
      Except.ok ⟨false, none, none, none, ["未找到一买"]⟩
    else
      match fb.firstBuyPos with
      | none => Except.error "TypeError: comparison with None"
      | some one_buy =>
        match lastIdxWhere (fun b => decide (|b.low - one_buy| < 1/100)) df.bars with
        | none => Except.ok ⟨false, some one_buy, none, none, ["无法确定一买位置"]⟩
        | some i =>
          let df_after := df.bars.drop i
          if df_after.length < 30 then
            Except.ok ⟨false, some one_buy, none, none, ["一买之后数据不足"]⟩
          else
            match find_zhongshu_simple ⟨df_after, df.hasDif, df.hasDea, df.hasMacd⟩ 6
              (min 30 (df_after.length - 5)) with
            | none => Except.ok ⟨false, some one_buy, none, none, ["一买之后未形成有效中枢"]⟩
            | some (zdv, zgv) =>
              if is_third_buy_simple ⟨df_after, df.hasDif, df.hasDea, df.hasMacd⟩
                  zdv zgv 3 10 0 then
                Except.ok ⟨true, some one_buy, some zgv, some zdv,
                  ["形成完整的一买->中枢->三买形态"]⟩
              else
                Except.ok ⟨false, some one_buy, some zgv, some zdv,
                  ["未形成三买（可能中枢未突破或回抽跌破）"]⟩

/-- Result record of analyze_all_buy_points.  Field mapping: firstBuy = 一买,
secondBuy = 二买, thirdBuy = 三买, currentSignal = 当前信号. -/
structure AllBuyResult where
  firstBuy : FirstBuyResult
  secondBuy : SecondBuyResult
  thirdBuy : ThirdFromFirstResult
  currentSignal : String
  deriving DecidableEq

/-- analyze_all_buy_points (chan_logic.py lines 1062-1088), fault-tracking:
run the three full-history detectors and report one signal with the strict
precedence third > second > first. -/
def analyze_all_buy_pointsE (df : DF) (lookback : ℕ := 80) :
    Except String AllBuyResult := do
  let fb := check_first_buy_point df lookback
  let sb ← check_second_buy_pointE df lookback
  let tb ← check_third_buy_from_first_buyE df lookback
  let signal := if tb.existsThirdBuy then "三买"
    else if sb.existsSecondBuy then "二买"
    else if fb.existsFirstBuy then "一买"
    else "无"
  pure ⟨fb, sb, tb, signal⟩

/-- One rolling(w).mean() column over a series; none models the NaN prefix
of pandas rolling. -/
def rollMean (w : ℕ) (l : List ℚ) : List (Option ℚ) :=
  (List.range l.length).map (fun i =>
    if w ≤ i + 1 then
      some (((l.take (i+1)).drop (i+1-w)).foldl (fun a b => a + b) 0 / (w : ℚ))
    else none)

/-- NaN-aware <= on rolling values: a comparison involving NaN is false, as
in Python float comparisons. -/
def leNaN (a b : Option ℚ) : Bool :=
  match a, b with
  | some x, some y => decide (x ≤ y)
  | _, _ => false

/-- NaN-aware < on rolling values. -/
def ltNaN (a b : Option ℚ) : Bool :=
  match a, b with
  | some x, some y => decide (x < y)
  | _, _ => false

/-- Result record of check_ma_cross.  Field mapping: goldenCross = 金叉,
deathCross = 死叉, ma1v = ma1, ma2v = ma2, goldenCrossDate = 金叉日期. -/
structure MaCrossResult where
  goldenCross : Bool
  deathCross : Bool
  ma1v : Option ℚ
  ma2v : Option ℚ
  goldenCrossDate : Option String
  deriving DecidableEq

/-- check_ma_cross (chan_logic.py lines 493-540): golden cross when the fast
rolling mean currently sits above the slow one; the cross date is found by
scanning backward from the second-to-last bar for the most recent position
where fast was at or below slow (our bar model carries no date column, so
the source's row.get default yields the index rendering). -/
def check_ma_cross (df : DF) (ma1 : ℕ := 5) (ma2 : ℕ := 10) : MaCrossResult :=
  if df.bars.length < ma2 + 5 then ⟨false, false, none, none, none⟩
  else
    let closes := df.bars.map Bar.close
    let m5 := rollMean ma1 closes
    let m10 := rollMean ma2 closes
    let t5 := m5.getLastD none
    let t10 := m10.getLastD none
    let golden := ltNaN t10 t5
    let date := if golden then
        match lastIdxWhere (fun p => leNaN p.1 p.2)
          ((m5.zip m10).take (closes.length - 1)) with
        | some i => some (toString i)
        | none => none
      else none
    ⟨golden, ltNaN t5 t10, t5, t10, date⟩

/-- A stored pandas object: a base frame plus the columns written after a
copy (the rolling means the detectors add). -/
structure ColDF where
  base : DF
  extras : List (String × List (Option ℚ))
  deriving DecidableEq

/-- The empty stored object, default for out-of-range store reads. -/
def emptyColDF : ColDF := ⟨⟨[], true, true, true⟩, []⟩

/-- An object store: the heap of DataFrame objects live during a detector
call, addressed by position.  df.copy() is modelled by appending a fresh
object; a write to a column lands in the extras of that fresh object. -/
abbrev PdStore := List ColDF

/-- find_zhongshu_simple as a store transformer: the caller passes the store
and the position of its frame; the body only reads that frame and allocates
one copy of the trailing window (df.tail(lookback).copy()), after the first
length guard. -/
def find_zhongshu_simple_S (s : PdStore) (i : ℕ) (segment_bars : ℕ := 8)
    (lookback : ℕ := 50) : Option (ℚ × ℚ) × PdStore :=
  let df := (s.getD i emptyColDF).base
  if df.bars.length < segment_bars * 3 then (none, s)
  else
    (find_zhongshu_simple df segment_bars lookback,
      s ++ [⟨⟨tailList lookback df.bars, df.hasDif, df.hasDea, df.hasMacd⟩, []⟩])

/-- check_ma_cross as a store transformer: after the length guard the source
copies the frame (df = df.copy()) and writes the ma5 and ma10 columns into
the copy; the caller's frame is only read. -/
def check_ma_cross_S (s : PdStore) (i : ℕ) (ma1 : ℕ := 5) (ma2 : ℕ := 10) :
    MaCrossResult × PdStore :=
  let df := (s.getD i emptyColDF).base
  if df.bars.length < ma2 + 5 then (check_ma_cross df ma1 ma2, s)
  else
    let closes := df.bars.map Bar.close
    (check_ma_cross df ma1 ma2,
      s ++ [⟨df, [("ma5", rollMean ma1 closes), ("ma10", rollMean ma2 closes)]⟩])

/-- check_today_first_buy as a store transformer: after the length guard the
source copies the frame into df_ma and writes the ma5 and ma10 columns into
the copy; the divergence path additionally takes a read-only tail view. -/
def check_today_first_buy_S (s : PdStore) (i : ℕ) (lookback : ℕ := 30) :
    TodayFirstResult × PdStore :=
  let df := (s.getD i emptyColDF).base
  if df.bars.length < 20 then (check_today_first_buy df lookback, s)
  else
    let closes := df.bars.map Bar.close
    (check_today_first_buy df lookback,
      s ++ [⟨df, [("ma5", rollMean 5 closes), ("ma10", rollMean 10 closes)]⟩])

/-- check_today_second_buy as a store transformer: the copy with the rolling
means is only created when the moving-average block is reached (the early
returns of the source precede it). -/
def check_today_second_buy_S (s : PdStore) (i : ℕ) (lookback : ℕ := 30) :
    TodaySecondResult × PdStore :=
  let df := (s.getD i emptyColDF).base
  let res := check_today_second_buy df lookback
  let lows := today_second_lows df.bars
  let one_buy := today_one_buy_price df.bars
  let closes := df.bars.map Bar.close
  let c := lastD closes
  if df.bars.length < 20 ∨ lows.length < 2 ∨
      (|c - one_buy| ≤ one_buy * (5/100) ∧ one_buy < c) then (res, s)
  else (res, s ++ [⟨df, [("ma5", rollMean 5 closes), ("ma10", rollMean 10 closes)]⟩])

/-- A flat bar (all prices 10) used to build the concrete frames below. -/
def flatBar : Bar := ⟨10, 10, 10, 10, 1000, 0, -1, 0⟩

/-- A local-low bar at price 8 with dif 2. -/
def lowBarA : Bar := ⟨10, 10, 8, 10, 1000, 2, -1, 0⟩

/-- A local-low bar at price 7 with dif 7/2. -/
def lowBarB : Bar := ⟨10, 10, 7, 10, 1000, 7/2, -1, 0⟩

/-- A 50-bar frame carrying dif and dea but no macd column, with local lows
at positions 35 (price 8, dif 2) and 44 (price 7, dif 7/2): its two
lowest-priced local lows show a classic bullish divergence (price makes a
new low, 7 below 8, while dif does not confirm, 7/2 above 2). -/
def divergenceSlipDF : DF :=
  ⟨List.replicate 35 flatBar ++ [lowBarA] ++ List.replicate 8 flatBar ++ [lowBarB] ++
    List.replicate 5 flatBar, true, true, false⟩

/-- The empty frame with all oscillator columns present. -/
def emptyDF : DF := ⟨[], true, true, true⟩

/-- A bar whose low 48/5 dips below the flat level 10. -/
def pullbackBar : Bar := ⟨10, 10, 48/5, 10, 1000, 0, 0, 0⟩

/-- A 20-bar frame with all closes equal to 10 (so the fast and slow moving
averages coincide on every bar) and two local lows of price 48/5 at
positions 5 and 12; the last close 10 lies within 5 percent above the proxy
first-buy level 48/5. -/
def pullbackDF : DF :=
  ⟨List.replicate 5 flatBar ++ [pullbackBar] ++ List.replicate 6 flatBar ++ [pullbackBar] ++
    List.replicate 7 flatBar, true, true, true⟩

/-- Three bars with highs 10, 9, 11 and lows 5, 6, 4: one-bar segments whose
extremes overlap in (6, 9). -/
def threeSegDF : DF :=
  ⟨[⟨0, 10, 5, 0, 0, 0, 0, 0⟩, ⟨0, 9, 6, 0, 0, 0, 0, 0⟩, ⟨0, 11, 4, 0, 0, 0, 0, 0⟩],
    true, true, true⟩

/-- Two bars: a breakout close 11 above ZG = 10 followed by a pullback bar
whose low 52/5 holds above ZG and whose close equals ZG. -/
def breakoutDF : DF :=
  ⟨[⟨0, 11, 21/2, 11, 0, 0, 0, 0⟩, ⟨0, 10, 52/5, 10, 0, 0, 0, 0⟩], true, true, true⟩

/-- Four bars whose final close 11 is the only close above ZG = 10: the
breakout bar is the last bar of the window. -/
def lateBreakDF : DF :=
  ⟨[⟨0, 9, 9, 9, 0, 0, 0, 0⟩, ⟨0, 9, 9, 9, 0, 0, 0, 0⟩, ⟨0, 9, 9, 9, 0, 0, 0, 0⟩,
    ⟨0, 11, 21/2, 11, 0, 0, 0, 0⟩], true, true, true⟩

/-- Whether a fault-tracking run returned normally. -/
def isOkE (e : Except String α) : Bool :=
  match e with
  | Except.ok _ => true
  | Except.error _ => false

/-- The returned record of a fault-tracking run, with a default for the
error case. -/
def getOkD (e : Except String α) (d : α) : α :=
  match e with
  | Except.ok v => v
  | Except.error _ => d

/-- Default aggregate record for getOkD. -/
def defaultAllBuy : AllBuyResult :=
  ⟨⟨false, none, []⟩, ⟨false, none, none, none, none, []⟩,
    ⟨false, none, none, none, []⟩, ""⟩

/-- C9: No detector mutates the caller's input series.  In the object-store
model every cell that existed before a detector call is unchanged after it:
window slicing only reads, and the rolling-mean columns are written into a
freshly allocated copy, for the pivot detector, the MA-cross detector and
the two same-day composers that add columns. -/
theorem detectors_preserve_caller_frames (s : PdStore) (i S L m1 m2 L1 L2 : ℕ) :
    ((find_zhongshu_simple_S s i S L).2).take s.length = s ∧
    ((check_ma_cross_S s i m1 m2).2).take s.length = s ∧
    ((check_today_first_buy_S s i L1).2).take s.length = s ∧
    ((check_today_second_buy_S s i L2).2).take s.length = s := by
  refine ⟨?_, ?_, ?_, ?_⟩
  · simp only [find_zhongshu_simple_S]
    split
    · exact List.take_length s
    · exact List.take_left s _
  · simp only [check_ma_cross_S]
    split
    · exact List.take_length s
    · exact List.take_left s _
  · simp only [check_today_first_buy_S]
    split
    · exact List.take_length s
    · exact List.take_left s _
  · simp only [check_today_second_buy_S]
    split
    · exact List.take_length s
    · exact List.take_left s _

/-- C6: In analyze_today_buy_points the reported signal obeys the strict
precedence third > second > first: ThirdBuy whenever the same-day third-buy
check triggers, otherwise SecondBuy whenever the same-day second-buy check
triggers, otherwise FirstBuy whenever the same-day first-buy check triggers,
otherwise no signal. -/
theorem today_signal_strict_precedence (df : DF) (lookback : ℕ) :
    (analyze_today_buy_points df lookback).todaySignal =
      (if (analyze_today_buy_points df lookback).thirdBuy.todayThirdBuy then "三买"
       else if (analyze_today_buy_points df lookback).secondBuy.todaySecondBuy then "二买"
       else if (analyze_today_buy_points df lookback).firstBuy.todayFirstBuy then "一买"
       else "无") := rfl

/-- C8: In the divergence-magnitude sub-score of
calculate_divergence_strength, every division is behind an explicit zero
check on its baseline: the fault-tracking form never errors (first
conjunct), and with a zero dif baseline (and, in the fallback, a zero
histogram baseline) the magnitude percentage is taken to be 0, yielding
sub-score 0 instead of a division fault. -/
theorem magnitude_score_zero_guard :
    (∀ cd pd cm pm : ℚ, divergence_magnitude_scoreE cd pd cm pm =
        Except.ok (divergence_magnitude_score cd pd cm pm)) ∧
    (∀ cd cm pm : ℚ, divergence_magnitude_score cd 0 cm pm =
        if 0 ≤ cd then 0
        else if pm ≤ cm then
          (if pm = 0 then 0 else min 40 (pyInt ((cm - pm) / |pm| * 100 * 2)))
        else 5) ∧
    (∀ cd cm : ℚ, divergence_magnitude_score cd 0 cm 0 =
        if 0 ≤ cd then 0 else if 0 ≤ cm then 0 else 5) := by
  have hok : ∀ cd pd cm pm : ℚ, divergence_magnitude_scoreE cd pd cm pm =
      Except.ok (divergence_magnitude_score cd pd cm pm) := by
    intro cd pd cm pm
    unfold divergence_magnitude_scoreE divergence_magnitude_score qdiv
    split
    · split
      · rename_i hpd
        rw [if_neg (fun h => hpd (abs_eq_zero.mp h))]
        rfl
      · rfl
    · split
      · split
        · rename_i hpm
          rw [if_neg (fun h => hpm (abs_eq_zero.mp h))]
          rfl
        · rfl
      · rfl
  have hz : min (40:ℤ) (pyInt ((0:ℚ) * 2)) = 0 := by norm_num [pyInt]
  refine ⟨hok, ?_, ?_⟩
  · intro cd cm pm
    unfold divergence_magnitude_score
    by_cases hcd : (0:ℚ) ≤ cd
    · rw [if_pos hcd, if_pos hcd]
      simpa using hz
    · rw [if_neg hcd, if_neg hcd]
      by_cases hpm2 : pm ≤ cm
      · rw [if_pos hpm2, if_pos hpm2]
        by_cases hpm0 : pm = 0
        · subst hpm0
          rw [if_pos rfl]
          simpa using hz
        · rw [if_neg hpm0]
          simp only [if_pos hpm0]
      · rw [if_neg hpm2, if_neg hpm2]
  · intro cd cm
    unfold divergence_magnitude_score
    by_cases hcd : (0:ℚ) ≤ cd
    · rw [if_pos hcd, if_pos hcd]
      simpa using hz
    · rw [if_neg hcd, if_neg hcd]
      by_cases hcm : (0:ℚ) ≤ cm
      · rw [if_pos hcm, if_pos hcm]
        simpa using hz
      · rw [if_neg hcm, if_neg hcm]

/-- C4: Breakout-pullback validation is antitone in the clearance margin:
for fixed bar data and fixed range, if is_third_buy_simple passes with
min_close_above_zg = c2 then it also passes with any c1 at most c2; raising
the clearance can only turn a pass into a failure. -/
theorem third_buy_clearance_antitone (df : DF) (zd zg : ℚ) (bb pb : ℕ) (c1 c2 : ℚ)
    (hc : c1 ≤ c2) (h : is_third_buy_simple df zd zg bb pb c2 = true) :
    is_third_buy_simple df zd zg bb pb c1 = true := by
  unfold is_third_buy_simple at h ⊢
  by_cases hlen : df.bars.length < bb + pb
  · rw [if_pos hlen] at h
    cases h
  · rw [if_neg hlen] at h ⊢
    dsimp only at h ⊢
    cases hidx : lastIdxWhere (fun c => decide (zg < c))
        ((tailList (bb + pb + 5) df.bars).map Bar.close) with
    | none =>
      rw [hidx] at h
      cases h
    | some bi =>
      rw [hidx] at h
      dsimp only at h ⊢
      by_cases hemp : (((tailList (bb + pb + 5) df.bars).map Bar.low).drop (bi + 1)).isEmpty
      · rw [if_pos hemp] at h
        cases h
      · rw [if_neg hemp] at h ⊢
        by_cases hmin : minD (((tailList (bb + pb + 5) df.bars).map Bar.low).drop (bi + 1)) ≤ zg
        · rw [if_pos hmin] at h
          cases h
        · rw [if_neg hmin] at h ⊢
          by_cases h2 : lastD ((tailList (bb + pb + 5) df.bars).map Bar.close) < zg + c2
          · rw [if_pos h2] at h
            cases h
          · rw [if_neg (fun h1 => h2 (lt_of_lt_of_le h1 (by linarith)))]

/-- Taking a trailing window commutes with projecting a bar column. -/
lemma tailList_map (f : Bar → ℚ) (k : ℕ) (l : List Bar) :
    (tailList k l).map f = tailList k (l.map f) := by
  simp [tailList, List.map_drop, List.length_map]

/-- A trailing window of positive width over a nonempty series is nonempty. -/
lemma tailList_ne_nil {l : List ℚ} (hne : l ≠ []) {k : ℕ} (hk : 1 ≤ k) :
    tailList k l ≠ [] := by
  have hlen : 0 < l.length := List.length_pos.mpr hne
  simp only [tailList, ne_eq, List.drop_eq_nil_iff_le, not_le]
  omega

/-- Dropping an initial segment does not change the last element. -/
lemma getLast?_drop {l : List ℚ} : ∀ {m : ℕ}, m < l.length →
    (l.drop m).getLast? = l.getLast? := by
  induction l with
  | nil => intro m h; simp at h
  | cons a as ih =>
    intro m h
    match m with
    | 0 => rfl
    | Nat.succ m =>
      have hm : m < as.length := by
        simpa using Nat.lt_of_succ_lt_succ h
      have hne : as ≠ [] := by
        intro hnil
        rw [hnil] at hm
        simp at hm
      rw [List.drop_succ_cons, ih hm]
      cases as with
      | nil => exact absurd rfl hne
      | cons b bs => rw [List.getLast?_cons_cons]

/-- The last element of a trailing window of positive width is the last
element of the series. -/
lemma lastD_tailList {l : List ℚ} (hne : l ≠ []) {k : ℕ} (hk : 1 ≤ k) :
    lastD (tailList k l) = lastD l := by
  unfold lastD tailList
  rw [List.getLastD_eq_getLast?, List.getLastD_eq_getLast?,
    getLast?_drop (by have := List.length_pos.mpr hne; omega)]

/-- A nonempty series has its defaulted last element as its optional last. -/
lemma getLast?_eq_lastD {l : List ℚ} (hne : l ≠ []) : l.getLast? = some (lastD l) := by
  rw [List.getLast?_eq_getLast l hne]
  unfold lastD
  rw [List.getLastD_eq_getLast?, List.getLast?_eq_getLast l hne]
  rfl

/-- When the last element satisfies the predicate, the backward scan stops
at the last index. -/
lemma lastIdxWhere_last {p : ℚ → Bool} : ∀ {l : List ℚ} {x : ℚ},
    l.getLast? = some x → p x = true → lastIdxWhere p l = some (l.length - 1) := by
  intro l
  induction l with
  | nil => intro x hx; simp at hx
  | cons a as ih =>
    intro x hx hp
    cases as with
    | nil =>
      simp only [List.getLast?_singleton, Option.some.injEq] at hx
      subst hx
      simp [lastIdxWhere, hp]
    | cons b bs =>
      rw [List.getLast?_cons_cons] at hx
      have hrec := ih hx hp
      rw [lastIdxWhere, hrec]
      dsimp only
      simp only [List.length_cons, Option.some.injEq]
      omega

/-- C10: When the most recent close above ZG is the final bar of the scanned
window (no bar exists strictly after the breakout bar), breakout-pullback
validation always fails: is_third_buy_simple is false and the
detail-producing variant reports the pullback-held condition as false. -/
theorem breakout_on_final_bar_fails (df : DF) (zd zg : ℚ) (bb pb : ℕ) (c : ℚ)
    (hne : df.bars ≠ []) (hlast : zg < lastD (df.bars.map Bar.close)) :
    is_third_buy_simple df zd zg bb pb c = false ∧
    (is_third_buy_with_reasons df zd zg bb pb).pullbackHeld = false := by
  have hmapne : df.bars.map Bar.close ≠ [] := by simpa using hne
  have hidx : ∀ k : ℕ, 1 ≤ k →
      lastIdxWhere (fun cl => decide (zg < cl)) ((tailList k df.bars).map Bar.close) =
        some (((tailList k df.bars).map Bar.close).length - 1) := by
    intro k hk
    have hwne : tailList k (df.bars.map Bar.close) ≠ [] := tailList_ne_nil hmapne hk
    have hlastw : lastD (tailList k (df.bars.map Bar.close)) = lastD (df.bars.map Bar.close) :=
      lastD_tailList hmapne hk
    refine lastIdxWhere_last (x := lastD (df.bars.map Bar.close)) ?_ (decide_eq_true hlast)
    rw [tailList_map, getLast?_eq_lastD hwne, hlastw]
  have hdroplen : ∀ (l : List Bar), (l.map Bar.low).drop ((l.map Bar.close).length - 1 + 1) = []
        ∨ l = [] := by
    intro l
    cases l with
    | nil => exact Or.inr rfl
    | cons a as =>
      left
      apply List.drop_eq_nil_iff_le.mpr
      simp
  constructor
  · unfold is_third_buy_simple
    by_cases hlen : df.bars.length < bb + pb
    · rw [if_pos hlen]
    · rw [if_neg hlen]
      dsimp only
      rw [hidx (bb + pb + 5) (by omega)]
      dsimp only
      rcases hdroplen (tailList (bb + pb + 5) df.bars) with hd | hd
      · rw [hd]
        rfl
      · exact absurd hd (by
          have := tailList_ne_nil hmapne (k := bb + pb + 5) (by omega)
          intro hc2
          apply this
          rw [← tailList_map]
          rw [hc2]
          rfl)
  · unfold is_third_buy_with_reasons
    by_cases hlen : df.bars.length < bb + pb + 2
    · rw [if_pos hlen]
    · rw [if_neg hlen]
      dsimp only
      rw [hidx (bb + pb + 5) (by omega)]
      dsimp only
      rcases hdroplen (tailList (bb + pb + 5) df.bars) with hd | hd
      · rw [hd]
        simp
      · exact absurd hd (by
          have := tailList_ne_nil hmapne (k := bb + pb + 5) (by omega)
          intro hc2
          apply this
          rw [← tailList_map]
          rw [hc2]
          rfl)

/-- The trailing window keeps min of the requested width and the length. -/
lemma tailList_length (k : ℕ) (l : List α) : (tailList k l).length = min k l.length := by
  simp [tailList]
  omega

/-- C3: The pivot detector first truncates to the most recent L bars and
returns no range when fewer than 3 * S bars remain; every returned range
satisfies ZG > ZD; and with enough bars it returns exactly the overlap of
the three abutting S-length chronological segments of the last 3 * S bars
(ZG the least segment high, ZD the greatest segment low), or no range when
that overlap is degenerate. -/
theorem zhongshu_range_characterization (df : DF) (S L : ℕ) (hS : 0 < S) :
    (min df.bars.length L < 3 * S → find_zhongshu_simple df S L = none) ∧
    (∀ zdv zgv : ℚ, find_zhongshu_simple df S L = some (zdv, zgv) → zdv < zgv) ∧
    (3 * S ≤ min df.bars.length L →
      find_zhongshu_simple df S L =
        (let w := tailList L df.bars
         let last3 := w.drop (w.length - 3 * S)
         let zgv := min (maxD ((last3.take S).map Bar.high))
           (min (maxD (((last3.drop S).take S).map Bar.high))
             (maxD ((last3.drop (2 * S)).map Bar.high)))
         let zdv := max (minD ((last3.take S).map Bar.low))
           (max (minD (((last3.drop S).take S).map Bar.low))
             (minD ((last3.drop (2 * S)).map Bar.low)))
         if zgv ≤ zdv then none else some (zdv, zgv))) := by
  have hwlen : (tailList L df.bars).length = min L df.bars.length := tailList_length L df.bars
  refine ⟨?_, ?_, ?_⟩
  · intro h
    unfold find_zhongshu_simple
    by_cases h1 : df.bars.length < S * 3
    · rw [if_pos h1]
    · rw [if_neg h1]
      dsimp only
      rw [if_pos (by rw [hwlen]; omega)]
  · unfold find_zhongshu_simple
    by_cases h1 : df.bars.length < S * 3
    · rw [if_pos h1]
      intro zdv zgv heq
      cases heq
    · rw [if_neg h1]
      dsimp only
      by_cases h2 : (tailList L df.bars).length < S * 3
      · rw [if_pos h2]
        intro zdv zgv heq
        cases heq
      · rw [if_neg h2]
        by_cases h3 : (min (maxD (((tailList L df.bars).drop ((tailList L df.bars).length - S * 3)).take S |>.map Bar.high))
            (min (maxD (((tailList L df.bars).drop ((tailList L df.bars).length - S * 2)).take S |>.map Bar.high))
              (maxD (((tailList L df.bars).drop ((tailList L df.bars).length - S)).map Bar.high)))) ≤
            (max (minD (((tailList L df.bars).drop ((tailList L df.bars).length - S * 3)).take S |>.map Bar.low))
            (max (minD (((tailList L df.bars).drop ((tailList L df.bars).length - S * 2)).take S |>.map Bar.low))
              (minD (((tailList L df.bars).drop ((tailList L df.bars).length - S)).map Bar.low))))
        · rw [if_pos h3]
          intro zdv zgv heq
          cases heq
        · rw [if_neg h3]
          intro zdv zgv heq
          simp only [Option.some.injEq, Prod.mk.injEq] at heq
          obtain ⟨hd, hg⟩ := heq
          subst hd
          subst hg
          exact not_le.mp h3
  · intro h3
    unfold find_zhongshu_simple
    rw [if_neg (by omega)]
    dsimp only
    rw [if_neg (by rw [hwlen]; omega)]
    have i1 : (tailList L df.bars).length - 3 * S =
        (tailList L df.bars).length - S * 3 := by
      omega
    have e2 : List.drop ((tailList L df.bars).length - S * 2) (tailList L df.bars) =
        List.drop S (List.drop ((tailList L df.bars).length - S * 3) (tailList L df.bars)) := by
      rw [List.drop_drop]
      congr 1
      rw [hwlen]
      omega
    have e3 : List.drop ((tailList L df.bars).length - S) (tailList L df.bars) =
        List.drop (2 * S) (List.drop ((tailList L df.bars).length - S * 3)
          (tailList L df.bars)) := by
      rw [List.drop_drop]
      congr 1
      rw [hwlen]
      omega
    rw [e2, e3, i1]

/-- The ascending-by-price comparator is transitive. -/
lemma lowLe_trans (a b c : LowPoint) (hab : lowLe a b = true) (hbc : lowLe b c = true) :
    lowLe a c = true := by
  unfold lowLe at hab hbc ⊢
  exact decide_eq_true (le_trans (of_decide_eq_true hab) (of_decide_eq_true hbc))

/-- The ascending-by-price comparator is total. -/
lemma lowLe_total (a b : LowPoint) : (lowLe a b || lowLe b a) = true := by
  unfold lowLe
  rcases le_total a.price b.price with h | h
  · rw [decide_eq_true h]
    rfl
  · rw [decide_eq_true h]
    simp

/-- Membership in a stable insertion. -/
lemma mem_stableInsert (le : α → α → Bool) (a x : α) :
    ∀ l : List α, x ∈ stableInsert le a l ↔ x = a ∨ x ∈ l := by
  intro l
  induction l with
  | nil => simp [stableInsert]
  | cons b bs ih =>
    simp only [stableInsert]
    by_cases h : le b a = true
    · rw [if_pos h]
      simp only [List.mem_cons, ih]
      tauto
    · rw [if_neg h]
      simp only [List.mem_cons]

/-- Stable insertion preserves sortedness for a transitive total comparator. -/
lemma pairwise_stableInsert (le : α → α → Bool)
    (htrans : ∀ a b c, le a b = true → le b c = true → le a c = true)
    (htot : ∀ a b, (le a b || le b a) = true)
    (a : α) (l : List α) (hl : l.Pairwise (fun x y => le x y = true)) :
    (stableInsert le a l).Pairwise (fun x y => le x y = true) := by
  induction l with
  | nil => simp [stableInsert]
  | cons b bs ih =>
    rcases List.pairwise_cons.mp hl with ⟨hb, hbs⟩
    simp only [stableInsert]
    by_cases h : le b a = true
    · rw [if_pos h]
      refine List.pairwise_cons.mpr ⟨?_, ih hbs⟩
      intro x hx
      rcases (mem_stableInsert le a x bs).mp hx with rfl | hxbs
      · exact h
      · exact hb x hxbs
    · rw [if_neg h]
      have hab : le a b = true := by
        rcases Bool.or_eq_true_iff.mp (htot a b) with hab | hba
        · exact hab
        · exact absurd hba h
      refine List.pairwise_cons.mpr ⟨?_, hl⟩
      intro x hx
      rcases List.mem_cons.mp hx with rfl | hxbs
      · exact hab
      · exact htrans a b x hab (hb x hxbs)

/-- The stable insertion sort is sorted for a transitive total comparator. -/
lemma pairwise_stableSort (le : α → α → Bool)
    (htrans : ∀ a b c, le a b = true → le b c = true → le a c = true)
    (htot : ∀ a b, (le a b || le b a) = true) (l : List α) :
    (stableSort le l).Pairwise (fun x y => le x y = true) := by
  unfold stableSort
  suffices h : ∀ acc : List α, acc.Pairwise (fun x y => le x y = true) →
      (l.foldl (fun acc a => stableInsert le a acc) acc).Pairwise
        (fun x y => le x y = true) from h [] (by simp)
  induction l with
  | nil => intro acc hacc; simpa using hacc
  | cons a as ih =>
    intro acc hacc
    simp only [List.foldl_cons]
    exact ih _ (pairwise_stableInsert le htrans htot a acc hacc)

/-- In the ascending-by-price sort, the second-to-last price is at most the
last price. -/
lemma stableSort_last_two_price (l : List LowPoint)
    (h2 : 2 ≤ (stableSort lowLe l).length) :
    ((stableSort lowLe l).getD ((stableSort lowLe l).length - 2) defLP).price ≤
    ((stableSort lowLe l).getD ((stableSort lowLe l).length - 1) defLP).price := by
  have hp := pairwise_stableSort lowLe lowLe_trans lowLe_total l
  have hi : (stableSort lowLe l).length - 2 < (stableSort lowLe l).length := by omega
  have hj : (stableSort lowLe l).length - 1 < (stableSort lowLe l).length := by omega
  rw [List.getD_eq_get _ defLP hi, List.getD_eq_get _ defLP hj]
  have hij : (⟨(stableSort lowLe l).length - 2, hi⟩ : Fin (stableSort lowLe l).length) <
      ⟨(stableSort lowLe l).length - 1, hj⟩ := by
    simp only [Fin.mk_lt_mk]
    omega
  have := (List.pairwise_iff_get.mp hp) _ _ hij
  exact of_decide_eq_true this

/-- C2 (code bug): after the ascending-by-price sort, check_bottom_divergence
takes lows[-1] as "current" and lows[-2] as "previous" - the two
highest-priced local lows, not the two lowest-priced ones - so its test
current.price < previous.price can never hold.  The detector never reports a
divergence; its reason list is fully characterized by the three precondition
guards and otherwise always collapses to the price-made-no-new-low message,
so the divergence branch and the oscillator-also-made-a-new-low reason are
both unreachable.  On the concrete frame divergenceSlipDF the spec's
two-lowest-lows rule fires, while the source detector reports only that
price made no new low. -/
theorem bottom_divergence_selection_slip :
    (∀ (df : DF) (lookback : ℕ),
      (check_bottom_divergence df lookback).hasDivergence = false) ∧
    (∀ (df : DF) (lookback : ℕ),
      (check_bottom_divergence df lookback).reasons =
        (if df.bars.length < 30 then ["K线不足"]
         else if ¬(df.hasDif ∧ df.hasDea) then ["无MACD数据"]
         else if (find_recent_lows df lookback).length < 2 then ["找不到足够的低点"]
         else ["价格未创新低"])) ∧
    spec_bottom_divergence divergenceSlipDF 20 = true ∧
    check_bottom_divergence divergenceSlipDF 20 =
      ⟨false, none, none, none, none, ["价格未创新低"]⟩ := by
  have hsorted : ∀ (df : DF) (lookback : ℕ),
      ¬ (find_recent_lows df lookback).length < 2 →
      ¬ ((find_recent_lows df lookback).getD
            ((find_recent_lows df lookback).length - 1) defLP).price <
          ((find_recent_lows df lookback).getD
            ((find_recent_lows df lookback).length - 2) defLP).price := by
    intro df lookback hlen
    refine not_lt.mpr ?_
    have h2 : 2 ≤ (find_recent_lows df lookback).length := by omega
    unfold find_recent_lows at h2 ⊢
    exact stableSort_last_two_price _ h2
  refine ⟨?_, ?_, by decide, by decide⟩
  · intro df lookback
    unfold check_bottom_divergence
    split
    · rfl
    · split
      · rfl
      · dsimp only
        split
        · rfl
        · rename_i hlen
          rw [if_neg (hsorted df lookback hlen)]
  · intro df lookback
    unfold check_bottom_divergence
    split
    · rfl
    · split
      · rfl
      · dsimp only
        split
        · rfl
        · rename_i h3
          rw [if_neg (hsorted df lookback h3)]

/-- C5 (code bug): calculate_divergence_strength re-derives the divergence
with the same lows[-1] / lows[-2] selection as check_bottom_divergence, so
its confirmed-divergence branch is unreachable: it never reports a
divergence and its total score is always 0.  On the concrete frame
divergenceSlipDF the spec's two-lowest-lows rule fires, while the scorer
reports no divergence. -/
theorem divergence_strength_never_fires :
    (∀ df : DF, (calculate_divergence_strength df).hasDiv = false ∧
      (calculate_divergence_strength df).score = 0) ∧
    spec_bottom_divergence divergenceSlipDF 20 = true ∧
    calculate_divergence_strength divergenceSlipDF =
      ⟨false, 0, 0, 0, 0, "", "", ["无底背驰"]⟩ := by
  refine ⟨?_, by decide, by decide⟩
  intro df
  unfold calculate_divergence_strength
  split
  · exact ⟨rfl, rfl⟩
  · split
    · exact ⟨rfl, rfl⟩
    · dsimp only
      split
      · exact ⟨rfl, rfl⟩
      · rename_i hlen
        have hle : ((find_recent_lows ⟨tailList 30 df.bars, df.hasDif, df.hasDea, df.hasMacd⟩ 20).getD
              ((find_recent_lows ⟨tailList 30 df.bars, df.hasDif, df.hasDea, df.hasMacd⟩ 20).length - 2) defLP).price ≤
            ((find_recent_lows ⟨tailList 30 df.bars, df.hasDif, df.hasDea, df.hasMacd⟩ 20).getD
              ((find_recent_lows ⟨tailList 30 df.bars, df.hasDif, df.hasDea, df.hasMacd⟩ 20).length - 1) defLP).price := by
          have h2 : 2 ≤ (find_recent_lows ⟨tailList 30 df.bars, df.hasDif, df.hasDea, df.hasMacd⟩ 20).length := by omega
          unfold find_recent_lows at h2 ⊢
          exact stableSort_last_two_price _ h2
        rw [if_neg (by
          intro hand
          exact absurd hand.1 (not_lt.mpr hle))]
        exact ⟨rfl, rfl⟩

/-- C7: A same-day moving-average golden cross is registered by the same-day
first-buy composer exactly when the fast average is at or below the slow one
at the second-to-last bar and strictly above it at the last bar (given
enough bars); in particular, when the fast and slow averages coincide on the
final bar, the first-buy composer registers no cross and the second-buy
composer can only have signalled through its pullback path. -/
theorem same_day_cross_strictness (df : DF) (L1 L2 : ℕ) :
    ((check_today_first_buy df L1).maGoldenCross =
      (decide (20 ≤ df.bars.length) && same_day_golden_cross (df.bars.map Bar.close))) ∧
    (rollLast 5 (df.bars.map Bar.close) = rollLast 10 (df.bars.map Bar.close) →
      (check_today_first_buy df L1).maGoldenCross = false ∧
      ((check_today_second_buy df L2).todaySecondBuy = true →
        today_second_pullback df = true)) := by
  have ha : (check_today_first_buy df L1).maGoldenCross =
      (decide (20 ≤ df.bars.length) && same_day_golden_cross (df.bars.map Bar.close)) := by
    unfold check_today_first_buy
    by_cases hlen : df.bars.length < 20
    · rw [if_pos hlen, decide_eq_false (by omega), Bool.false_and]
    · rw [if_neg hlen]
      dsimp only
      by_cases hcross : same_day_golden_cross (df.bars.map Bar.close) = true
      · rw [if_pos ⟨by omega, hcross⟩, decide_eq_true (show 20 ≤ df.bars.length by omega),
          hcross, Bool.true_and]
      · have hcf : same_day_golden_cross (df.bars.map Bar.close) = false :=
          Bool.eq_false_iff.mpr hcross
        rw [if_neg (fun hand => hcross hand.2), hcf, Bool.and_false]
        split
        · split
          · split
            · split
              · rfl
              · rfl
            · rfl
          · rfl
        · rfl
  refine ⟨ha, fun heq => ⟨?_, ?_⟩⟩
  · have hcf : same_day_golden_cross (df.bars.map Bar.close) = false := by
      unfold same_day_golden_cross
      rw [decide_eq_false (show ¬ rollLast 10 (df.bars.map Bar.close) <
          rollLast 5 (df.bars.map Bar.close) by rw [heq]; exact lt_irrefl _),
        Bool.and_false]
    rw [ha, hcf, Bool.and_false]
  · intro hsb
    have hcf : same_day_golden_cross (df.bars.map Bar.close) = false := by
      unfold same_day_golden_cross
      rw [decide_eq_false (show ¬ rollLast 10 (df.bars.map Bar.close) <
          rollLast 5 (df.bars.map Bar.close) by rw [heq]; exact lt_irrefl _),
        Bool.and_false]
    unfold check_today_second_buy at hsb
    by_cases hlen : df.bars.length < 20
    · rw [if_pos hlen] at hsb
      exact Bool.noConfusion hsb
    · rw [if_neg hlen] at hsb
      dsimp only at hsb
      by_cases hlows : (today_second_lows df.bars).length < 2
      · rw [if_pos hlows] at hsb
        exact Bool.noConfusion hsb
      · rw [if_neg hlows] at hsb
        by_cases hpull : |lastD (df.bars.map Bar.close) - today_one_buy_price df.bars| ≤
            today_one_buy_price df.bars * (5/100) ∧
            today_one_buy_price df.bars < lastD (df.bars.map Bar.close)
        · unfold today_second_pullback
          simp only [Bool.and_eq_true, decide_eq_true_eq]
          exact ⟨⟨by omega, by omega⟩, hpull.1, hpull.2⟩
        · rw [if_neg hpull] at hsb
          by_cases hma : 2 ≤ df.bars.length ∧
              same_day_golden_cross (df.bars.map Bar.close) = true ∧
              today_one_buy_price df.bars < lastD (df.bars.map Bar.close)
          · rw [hcf] at hma
            exact Bool.noConfusion hma.2.1
          · rw [if_neg hma] at hsb
            exact Bool.noConfusion hsb

/-- The modelled first-buy detector either reports no first buy, or it
certifies the dif and dea columns and carries a definite price. -/
lemma check_first_buy_point_cases (df : DF) (lookback : ℕ) :
    (check_first_buy_point df lookback).existsFirstBuy = false ∨
    (df.hasDif = true ∧ df.hasDea = true ∧
      ∃ p, check_first_buy_point df lookback = ⟨true, some p, []⟩) := by
  unfold check_first_buy_point
  split
  · left; rfl
  · split
    · left; rfl
    · dsimp only
      split
      · left; rfl
      · split
        · rename_i hcols _ _
          right
          have hc := of_not_not hcols
          exact ⟨hc.1, hc.2, _, rfl⟩
        · left; rfl

/-- With all oscillator columns present, one extremum-scan step never
faults and agrees with its pure form. -/
lemma extremaStepE_ok {df : DF} (hdif : df.hasDif = true) (hdea : df.hasDea = true)
    (hmacd : df.hasMacd = true) (w : List Bar) (acc : List Extremum × List Extremum)
    (i : ℕ) : extremaStepE df w acc i = Except.ok (extremaStep w acc i) := by
  unfold extremaStepE extremaStep colDif colDea colMacd
  rw [hdif, hdea, hmacd]
  simp only [if_true]
  split
  · split
    · split
      · rfl
      · rfl
    · split
      · rfl
      · rfl
  · rfl

/-- With all oscillator columns present, the extremum fold never faults. -/
lemma foldlM_extrema_ok {df : DF} (hdif : df.hasDif = true) (hdea : df.hasDea = true)
    (hmacd : df.hasMacd = true) (w : List Bar) :
    ∀ (l : List ℕ) (acc : List Extremum × List Extremum),
      List.foldlM (extremaStepE df w) acc l =
        Except.ok (List.foldl (extremaStep w) acc l) := by
  intro l
  induction l with
  | nil => intro acc; rfl
  | cons a as ih =>
    intro acc
    rw [List.foldlM_cons, extremaStepE_ok hdif hdea hmacd w acc a]
    exact ih _

/-- With all oscillator columns present, find_all_local_extrema never
faults. -/
lemma find_all_local_extremaE_ok {df : DF} (hdif : df.hasDif = true)
    (hdea : df.hasDea = true) (hmacd : df.hasMacd = true) (lookback : ℕ) :
    find_all_local_extremaE df lookback =
      Except.ok (find_all_local_extrema df lookback) := by
  unfold find_all_local_extremaE find_all_local_extrema
  exact foldlM_extrema_ok hdif hdea hmacd _ _ _

/-- Under the macd-column proviso, the second-buy composer returns normally. -/
lemma check_second_buy_pointE_ok (df : DF) (lookback : ℕ)
    (hcol : df.hasDif = true → df.hasDea = true → df.hasMacd = true) :
    ∃ r, check_second_buy_pointE df lookback = Except.ok r := by
  unfold check_second_buy_pointE
  split
  · exact ⟨_, rfl⟩
  · rcases check_first_buy_point_cases df lookback with hneg | ⟨hdif, hdea, p, hfb⟩
    · rw [if_pos hneg]
      exact ⟨_, rfl⟩
    · rw [if_neg (by rw [hfb]; exact fun hc => Bool.noConfusion hc), hfb]
      dsimp only
      rw [find_all_local_extremaE_ok hdif hdea (hcol hdif hdea) lookback]
      dsimp only [bind, Except.bind]
      split
      · exact ⟨_, rfl⟩
      · split
        · split
          · exact ⟨_, rfl⟩
          · exact ⟨_, rfl⟩
        · exact ⟨_, rfl⟩

/-- The third-buy-from-first-buy composer always returns normally. -/
lemma check_third_buy_from_first_buyE_ok (df : DF) (lookback : ℕ) :
    ∃ r, check_third_buy_from_first_buyE df lookback = Except.ok r := by
  unfold check_third_buy_from_first_buyE
  split
  · exact ⟨_, rfl⟩
  · rcases check_first_buy_point_cases df lookback with hneg | ⟨hdif, hdea, p, hfb⟩
    · rw [if_pos hneg]
      exact ⟨_, rfl⟩
    · rw [if_neg (by rw [hfb]; exact fun hc => Bool.noConfusion hc), hfb]
      dsimp only
      split
      · exact ⟨_, rfl⟩
      · split
        · exact ⟨_, rfl⟩
        · split
          · exact ⟨_, rfl⟩
          · split
            · exact ⟨_, rfl⟩
            · exact ⟨_, rfl⟩

/-- C1 (amended): under the proviso that the macd column is present whenever
dif and dea both are, the three full-history composers are total: the
second-buy and third-buy composers return normally, return the negative
K-line-insufficient record below 50 bars, and the aggregator returns
normally and reports all-negative records with no signal below 30 bars. -/
theorem engine_composers_total (df : DF) (lookback : ℕ)
    (hcol : df.hasDif = true → df.hasDea = true → df.hasMacd = true) :
    isOkE (check_second_buy_pointE df lookback) = true ∧
    (df.bars.length < 50 → check_second_buy_pointE df lookback =
      Except.ok ⟨false, none, none, none, none, ["K线不足"]⟩) ∧
    isOkE (check_third_buy_from_first_buyE df lookback) = true ∧
    (df.bars.length < 50 → check_third_buy_from_first_buyE df lookback =
      Except.ok ⟨false, none, none, none, ["K线不足"]⟩) ∧
    isOkE (analyze_all_buy_pointsE df lookback) = true ∧
    (df.bars.length < 30 →
      getOkD (analyze_all_buy_pointsE df lookback) defaultAllBuy =
        ⟨⟨false, none, ["K线不足"]⟩, ⟨false, none, none, none, none, ["K线不足"]⟩,
          ⟨false, none, none, none, ["K线不足"]⟩, "无"⟩) := by
  obtain ⟨r2, h2⟩ := check_second_buy_pointE_ok df lookback hcol
  obtain ⟨r3, h3⟩ := check_third_buy_from_first_buyE_ok df lookback
  have haok : analyze_all_buy_pointsE df lookback =
      Except.ok ⟨check_first_buy_point df lookback, r2, r3,
        if r3.existsThirdBuy then "三买"
        else if r2.existsSecondBuy then "二买"
        else if (check_first_buy_point df lookback).existsFirstBuy then "一买"
        else "无"⟩ := by
    unfold analyze_all_buy_pointsE
    rw [h2]
    dsimp only [bind, Except.bind]
    rw [h3]
    rfl
  refine ⟨by rw [h2]; rfl, ?_, by rw [h3]; rfl, ?_, by rw [haok]; rfl, ?_⟩
  · intro hlen
    unfold check_second_buy_pointE
    rw [if_pos hlen]
  · intro hlen
    unfold check_third_buy_from_first_buyE
    rw [if_pos (by omega)]
  · intro hlen
    have e2 : check_second_buy_pointE df lookback =
        Except.ok ⟨false, none, none, none, none, ["K线不足"]⟩ := by
      unfold check_second_buy_pointE
      rw [if_pos (by omega)]
    have e3 : check_third_buy_from_first_buyE df lookback =
        Except.ok ⟨false, none, none, none, ["K线不足"]⟩ := by
      unfold check_third_buy_from_first_buyE
      rw [if_pos (by omega)]
    have efb : check_first_buy_point df lookback = ⟨false, none, ["K线不足"]⟩ := by
      unfold check_first_buy_point
      rw [if_pos (by omega)]
    unfold analyze_all_buy_pointsE
    rw [e2]
    dsimp only [bind, Except.bind]
    rw [e3, efb]
    rfl

/-- C1 counterexample: the 50-bar frame divergenceSlipDF carries dif and dea
but no macd column and contains a first buy, so the second-buy composer
reaches find_all_local_extrema's unguarded macd read and raises a KeyError
instead of returning a record. -/
theorem second_buy_raises_on_missing_macd :
    check_second_buy_pointE divergenceSlipDF 80 = Except.error "KeyError: macd" := rfl

/-- Witness for the amended totality theorem at the empty frame. -/
theorem engine_composers_total_witness :
    isOkE (check_second_buy_pointE emptyDF 80) = true ∧
    check_second_buy_pointE emptyDF 80 =
      Except.ok ⟨false, none, none, none, none, ["K线不足"]⟩ ∧
    isOkE (check_third_buy_from_first_buyE emptyDF 80) = true ∧
    check_third_buy_from_first_buyE emptyDF 80 =
      Except.ok ⟨false, none, none, none, ["K线不足"]⟩ ∧
    isOkE (analyze_all_buy_pointsE emptyDF 80) = true ∧
    getOkD (analyze_all_buy_pointsE emptyDF 80) defaultAllBuy =
      ⟨⟨false, none, ["K线不足"]⟩, ⟨false, none, none, none, none, ["K线不足"]⟩,
        ⟨false, none, none, none, ["K线不足"]⟩, "无"⟩ := by
  have h := engine_composers_total emptyDF 80 (fun h _ => h)
  exact ⟨h.1, h.2.1 (by decide), h.2.2.1, h.2.2.2.1 (by decide), h.2.2.2.2.1,
    h.2.2.2.2.2 (by decide)⟩

/-- Witness for the pivot characterization: with one-bar segments of highs
10, 9, 11 and lows 5, 6, 4 the detector returns the range (6, 9), and the
theorem instantiated there yields 6 < 9. -/
theorem zhongshu_range_characterization_witness : 0 < 1 ∧ ((6:ℚ) < 9) :=
  ⟨by decide,
    (zhongshu_range_characterization threeSegDF 1 3 (by decide)).2.1 6 9 (by decide)⟩

/-- Witness for clearance antitonicity: breakoutDF passes validation against
ZG = 10 with clearance 0, so by the theorem it passes with clearance -1/2. -/
theorem third_buy_clearance_antitone_witness :
    (-1/2 : ℚ) ≤ 0 ∧ is_third_buy_simple breakoutDF 6 10 1 1 (-1/2) = true :=
  ⟨by decide,
    third_buy_clearance_antitone breakoutDF 6 10 1 1 (-1/2) 0 (by decide) (by decide)⟩

/-- Witness for the final-bar-breakout theorem: on lateBreakDF the only
close above ZG = 10 is the last bar, and both validators reject. -/
theorem breakout_on_final_bar_fails_witness :
    lateBreakDF.bars ≠ [] ∧ (10:ℚ) < lastD (lateBreakDF.bars.map Bar.close) ∧
    is_third_buy_simple lateBreakDF 6 10 1 1 0 = false ∧
    (is_third_buy_with_reasons lateBreakDF 6 10 1 1).pullbackHeld = false := by
  have h := breakout_on_final_bar_fails lateBreakDF 6 10 1 1 0 (by decide) (by decide)
  exact ⟨by decide, by decide, h.1, h.2⟩

/-- Witness for same-day cross strictness at pullbackDF: the fast and slow
averages coincide on the final bar, no golden cross is registered by the
first-buy composer, the second-buy composer signals, and the theorem forces
that signal through the pullback path. -/
theorem same_day_cross_strictness_witness :
    (check_today_first_buy pullbackDF 30).maGoldenCross = false ∧
    (check_today_second_buy pullbackDF 30).todaySecondBuy = true ∧
    today_second_pullback pullbackDF = true := by
  have h := (same_day_cross_strictness pullbackDF 30 30).2 (by decide)
  exact ⟨h.1, by decide, h.2 (by decide)⟩
